import Mathlib

/-!
Verification of the pyintellicenter client library.

This development is a shallow embedding, in Lean 4, of the parts of the
pyintellicenter code base that its specification makes claims about:

* the flow controller of `ICProtocol` in `protocol.py`
  (`sendRequest` / `responseReceived` and the bounded wait queue);
* the line framing of `ICProtocol.data_received` in `protocol.py` and the
  buffer-cap check of `data_received` in `connection.py`;
* the future-based response correlation of `ICProtocol` in `connection.py`
  (`_handle_response`, `send_request`);
* the write path of `ICBaseController.request_changes` serialized through
  the per-connection request lock of `ICConnection.send_request`;
* the equipment model of `model.py` (`PoolObject.update`,
  `PoolModel.addObject`, `PoolModel.processUpdates`);
* the reconnection backoff and debounced disconnect notification of
  `ICConnectionHandler` in `controller.py`.

Dictionaries (`dict[str, ...]`) are embedded as association lists whose
operations mirror Python dict semantics (lookup, in-place assignment,
`pop`); attribute values, which the code treats as opaque data compared
only for equality, are embedded as `String`.  Stateful methods become pure
functions from state to state; code that can raise returns `Except`.

The file is organized as definitions first, then theorems.
-/

/-! # Definitions -/

/-! ## Association lists: the embedding of Python dicts

`alookup` is `d.get(k)` / `k in d`, `aset` is `d[k] = v` (replaces in
place when the key exists, appends otherwise), `aremove` is `d.pop(k)`
(dict keys are unique, so removing the first binding is `pop`).
-/

def alookup {α : Type} : List (String × α) → String → Option α
  | [], _ => none
  | (k, v) :: rest, key => if k = key then some v else alookup rest key

def aset {α : Type} : List (String × α) → String → α → List (String × α)
  | [], key, val => [(key, val)]
  | (k, v) :: rest, key, val =>
      if k = key then (k, val) :: rest else (k, v) :: aset rest key val

def aremove {α : Type} : List (String × α) → String → List (String × α)
  | [], _ => []
  | (k, v) :: rest, key => if k = key then rest else (k, v) :: aremove rest key

/-- The keys of an association list, in order. -/
def akeys {α : Type} (l : List (String × α)) : List String := l.map Prod.fst

/-- `AttrMap` embeds `dict[str, Any]` attribute bags. -/
abbrev AttrMap := List (String × String)

/-! ## `protocol.py`: the flow controller of `ICProtocol`

State of the one-request-on-the-wire discipline.  `outPending` and
`outQueue` mirror `_out_pending` and `_out_queue` (an `asyncio.Queue`
bounded by `MAX_QUEUE_SIZE`).  `unanswered` is the observable the spec
talks about: the number of requests written to the transport that have
not yet received a response (each `_writeToTransport` call increments it,
each arriving response decrements it).
-/

def MAX_QUEUE_SIZE : Nat := 100

structure FlowState where
  outPending : Nat
  outQueue : List String
  unanswered : Nat
deriving Repr, DecidableEq

def initFlow : FlowState := { outPending := 0, outQueue := [], unanswered := 0 }

/-- `ICProtocol.sendRequest`: increment `_out_pending` first; if the
post-increment counter is 1 write to the transport, otherwise enqueue;
if the queue is full (`asyncio.QueueFull`) undo the increment and drop
the request (the caller is not told). -/
def ICProtocol.sendRequest (s : FlowState) (request : String) : FlowState :=
  let pending := s.outPending + 1
  if pending = 1 then
    { s with outPending := pending, unanswered := s.unanswered + 1 }
  else if s.outQueue.length < MAX_QUEUE_SIZE then
    { s with outPending := pending, outQueue := s.outQueue ++ [request] }
  else
    { s with outPending := pending - 1 }

/-- `ICProtocol.responseReceived`: write the next queued request (if any)
to the transport, then decrement `_out_pending` (which the code guards
against going negative). -/
def ICProtocol.responseReceived (s : FlowState) : FlowState :=
  let s1 :=
    if s.outQueue.isEmpty then s
    else { s with outQueue := s.outQueue.tail, unanswered := s.unanswered + 1 }
  { s1 with outPending := s1.outPending - 1 }

/-- A response arriving from the device: the arrival answers one of the
requests outstanding on the wire, then `responseReceived` runs. -/
def ICProtocol.responseArrival (s : FlowState) : FlowState :=
  ICProtocol.responseReceived { s with unanswered := s.unanswered - 1 }

inductive FlowEvent where
  | send (request : String)
  | response
deriving Repr, DecidableEq

def flowStep (s : FlowState) : FlowEvent → FlowState
  | .send r => ICProtocol.sendRequest s r
  | .response => ICProtocol.responseArrival s

def flowRun (s : FlowState) (evs : List FlowEvent) : FlowState :=
  evs.foldl flowStep s

/-- A trace is guarded when every `response` event is the arrival of a
response to a request that is actually outstanding on the wire (the
device answers requests; it does not volunteer responses). -/
def flowGuarded (s : FlowState) : List FlowEvent → Bool
  | [] => true
  | .send r :: evs => flowGuarded (ICProtocol.sendRequest s r) evs
  | .response :: evs =>
      decide (1 ≤ s.unanswered) && flowGuarded (ICProtocol.responseArrival s) evs

/-- The inductive invariant of the flow controller. -/
def FlowInv (s : FlowState) : Prop :=
  s.unanswered ≤ 1 ∧
  s.outPending = s.unanswered + s.outQueue.length ∧
  (s.outQueue ≠ [] → s.unanswered = 1) ∧
  s.outQueue.length ≤ MAX_QUEUE_SIZE

/-- A flow-control state with one request on the wire and a full queue. -/
def fullFlowState : FlowState :=
  { outPending := MAX_QUEUE_SIZE + 1,
    outQueue := List.replicate MAX_QUEUE_SIZE "queued",
    unanswered := 1 }

/-! ## Framing: the receive buffers

`protocol.py` accumulates decoded text in `_lineBuffer` and checks the
cap (`MAX_BUFFER_SIZE = 1_000_000`) right after appending, before the
terminator test; on overflow it closes the transport and clears the
buffer.  `connection.py` accumulates raw bytes in `_buffer` against its
own cap (`1024 * 1024`) and closes the transport on overflow (bytes are
embedded as characters here: only lengths and the CRLF terminator
matter to the claims).
-/

def MAX_BUFFER_SIZE : Nat := 1000000

def CONN_MAX_BUFFER_SIZE : Nat := 1024 * 1024

def crlf : String := "\r\n"

structure ProtState where
  lineBuffer : String
  closed : Bool
  delivered : List String
deriving Repr, DecidableEq

def initProt : ProtState := { lineBuffer := "", closed := false, delivered := [] }

/-- `ICProtocol.data_received` of `protocol.py`: append to `_lineBuffer`;
if the buffer now exceeds `MAX_BUFFER_SIZE`, close the connection and
clear the buffer; otherwise wait for a terminating CRLF, and once the
buffer ends with one, split it into lines and process each non-empty
line. -/
def ICProtocol.dataReceived (st : ProtState) (data : String) : ProtState :=
  if (st.lineBuffer ++ data).length > MAX_BUFFER_SIZE then
    { st with lineBuffer := "", closed := true }
  else if (st.lineBuffer ++ data).endsWith crlf then
    { st with
      lineBuffer := "",
      delivered := st.delivered ++
        ((st.lineBuffer ++ data).splitOn crlf).filter (fun l => l ≠ "") }
  else
    { st with lineBuffer := st.lineBuffer ++ data }

structure ConnBufState where
  buffer : String
  closed : Bool
  dispatched : List String
deriving Repr, DecidableEq

def initConnBuf : ConnBufState := { buffer := "", closed := false, dispatched := [] }

/-- `data_received` of `connection.py`: append to `_buffer`; if the
buffer exceeds the 1 MiB cap, close the transport and return (the
buffer is kept but the connection is gone); otherwise split off and
dispatch every complete CRLF-terminated line, keeping the remainder. -/
def ICConnProto.dataReceived (st : ConnBufState) (data : String) : ConnBufState :=
  if (st.buffer ++ data).length > CONN_MAX_BUFFER_SIZE then
    { st with buffer := st.buffer ++ data, closed := true }
  else
    { st with
      buffer := ((st.buffer ++ data).splitOn crlf).getLastD "",
      dispatched := st.dispatched ++ ((st.buffer ++ data).splitOn crlf).dropLast }

/-- A chunk of 1,048,577 characters: larger than both buffer caps. -/
def bigList : List Char := List.replicate 1048577 'a'

def bigChunk : String := String.mk bigList

/-! ## `model.py`: `PoolObject` and `PoolModel`

`PoolObject.__init__` pops the `OBJTYP` discriminator out of the
parameter bag — `params.pop(OBJTYP_ATTR)` with no default, which raises
`KeyError` when the key is absent — and pops `SUBTYP` with a `None`
default; the rest of the bag becomes `_properties`.  The embedding
returns `Except PyErr` to carry the raise.
-/

def OBJTYP_ATTR : String := "OBJTYP"

def SUBTYP_ATTR : String := "SUBTYP"

def STATUS_ATTR : String := "STATUS"

inductive PyErr where
  | keyError (key : String)
deriving Repr, DecidableEq

structure PoolObject where
  objnam : String
  objtyp : String
  subtyp : Option String
  properties : AttrMap
deriving Repr, DecidableEq

def PoolObject.init (objnam : String) (params : AttrMap) : Except PyErr PoolObject :=
  match alookup params OBJTYP_ATTR with
  | none => .error (.keyError OBJTYP_ATTR)
  | some t =>
      .ok { objnam := objnam,
            objtyp := t,
            subtyp := alookup (aremove params OBJTYP_ATTR) SUBTYP_ATTR,
            properties := aremove (aremove params OBJTYP_ATTR) SUBTYP_ATTR }

/-- The loop body of `PoolObject.update`: skip a pair whose key is
already present in `_properties` with the same value; otherwise route
`OBJTYP`/`SUBTYP` to the type fields and everything else to
`_properties`, and record the pair in `changed`. -/
def updateGo : PoolObject → AttrMap → AttrMap → PoolObject × AttrMap
  | obj, changed, [] => (obj, changed)
  | obj, changed, (key, value) :: rest =>
      if alookup obj.properties key = some value then
        updateGo obj changed rest
      else if key = OBJTYP_ATTR then
        updateGo { obj with objtyp := value } (aset changed key value) rest
      else if key = SUBTYP_ATTR then
        updateGo { obj with subtyp := some value } (aset changed key value) rest
      else
        updateGo { obj with properties := aset obj.properties key value }
          (aset changed key value) rest

/-- `PoolObject.update`: apply the key/value pairs in order and return
the updated object together with the dict of changed attributes. -/
def PoolObject.update (obj : PoolObject) (updates : AttrMap) : PoolObject × AttrMap :=
  updateGo obj [] updates

structure PoolModel where
  objects : List (String × PoolObject)
  systemObject : Option PoolObject
  attributeMap : List (String × List String)
deriving Repr, DecidableEq

/-- The `if pool_obj.objtyp == "SYSTEM"` bookkeeping inside
`PoolModel.addObject`. -/
def PoolModel.noteSystem (model : PoolModel) (poolObj : PoolObject) : PoolModel :=
  if poolObj.objtyp = "SYSTEM" then { model with systemObject := some poolObj } else model

/-- `PoolModel.addObject`: update an existing object in place; otherwise
construct a `PoolObject` (which raises on a missing `OBJTYP`), note a
`SYSTEM` object, and keep the object only when its type is a key of the
attribute map (`in` on a Python dict tests its keys). -/
def PoolModel.addObject (model : PoolModel) (objnam : String) (params : AttrMap) :
    Except PyErr (PoolModel × Option PoolObject) :=
  match alookup model.objects objnam with
  | some poolObj =>
      .ok ({ model with objects := aset model.objects objnam (poolObj.update params).1 },
           some (poolObj.update params).1)
  | none =>
      match PoolObject.init objnam params with
      | .error e => .error e
      | .ok poolObj =>
          if (alookup (model.noteSystem poolObj).attributeMap poolObj.objtyp).isSome then
            .ok ({ model.noteSystem poolObj with
                   objects := aset (model.noteSystem poolObj).objects objnam poolObj },
                 some poolObj)
          else
            .ok (model.noteSystem poolObj, none)

/-- The loop of `PoolModel.processUpdates`: look each entry up by
`objnam`, skip entries whose object is not in the model, apply `update`
to the ones that are, and record a `name -> changed` entry when the diff
is non-empty. -/
def processUpdatesGo :
    PoolModel → List (String × AttrMap) → List (String × AttrMap) →
      PoolModel × List (String × AttrMap)
  | model, updated, [] => (model, updated)
  | model, updated, (objnam, params) :: rest =>
      match alookup model.objects objnam with
      | none => processUpdatesGo model updated rest
      | some poolObj =>
          processUpdatesGo
            { model with objects := aset model.objects objnam (poolObj.update params).1 }
            (if (poolObj.update params).2 = [] then updated
             else aset updated objnam (poolObj.update params).2)
            rest

def PoolModel.processUpdates (model : PoolModel)
    (updates : List (String × AttrMap)) : PoolModel × List (String × AttrMap) :=
  processUpdatesGo model [] updates

/-- An empty model.  The attribute map stands in for the default
`ALL_ATTRIBUTES_BY_TYPE` table; its contents are irrelevant to the
claims proved here (the `addObject` claim fails before the map is
consulted). -/
def emptyPoolModel : PoolModel :=
  { objects := [], systemObject := none, attributeMap := [("CIRCUIT", [STATUS_ATTR])] }

/-- A circuit object whose `STATUS` is `"ON"`, used as concrete input. -/
def c4Object : PoolObject :=
  { objnam := "C1", objtyp := "CIRCUIT", subtyp := none,
    properties := [(STATUS_ATTR, "ON")] }

/-- A model holding one circuit `O1` with `STATUS == "OFF"`. -/
def c5Obj : PoolObject :=
  { objnam := "O1", objtyp := "CIRCUIT", subtyp := none,
    properties := [(STATUS_ATTR, "OFF")] }

def c5Model : PoolModel :=
  { objects := [("O1", c5Obj)], systemObject := none,
    attributeMap := [("CIRCUIT", [STATUS_ATTR])] }

def c5ObjOn : PoolObject :=
  { objnam := "O1", objtyp := "CIRCUIT", subtyp := none,
    properties := [(STATUS_ATTR, "ON")] }

/-! ## `controller.py` / `connection.py`: the write path

`ICBaseController.request_changes(objnam, changes)` sends one
`SETPARAMLIST` command whose `objectList` holds exactly the caller's
object and changes; `ICConnection.send_request` serializes concurrent
callers behind `self._request_lock` (an `asyncio.Lock`, FIFO for
waiters), so each queued caller writes its own packet when it acquires
the lock.  There is no shared pending batch anywhere on this path.
-/

structure WriteReq where
  objnam : String
  changes : AttrMap
deriving Repr, DecidableEq

structure Packet where
  command : String
  objectList : List (String × AttrMap)
deriving Repr, DecidableEq

/-- The packet built by `ICBaseController.request_changes`. -/
def requestChangesPacket (w : WriteReq) : Packet :=
  { command := "SETPARAMLIST", objectList := [(w.objnam, w.changes)] }

structure LockState where
  inFlight : Option WriteReq
  waiting : List WriteReq
  wire : List Packet
deriving Repr, DecidableEq

/-- One completion step of the request lock: when the in-flight request
finishes, the next waiter (FIFO) acquires the lock and its own packet is
written to the wire. -/
def lockComplete (s : LockState) : LockState :=
  match s.inFlight with
  | none => s
  | some _ =>
      match s.waiting with
      | [] => { s with inFlight := none }
      | w :: rest =>
          { inFlight := some w, waiting := rest,
            wire := s.wire ++ [requestChangesPacket w] }

def lockDrainFuel : Nat → LockState → LockState
  | 0, s => s
  | n + 1, s => lockDrainFuel n (lockComplete s)

/-- Run completions until the in-flight slot and the wait queue drain. -/
def lockDrain (s : LockState) : LockState :=
  lockDrainFuel (s.waiting.length + 1) s

/-- The C2 scenario: a write for `B` in flight (already on the wire) and
state-change writes `(A, ON)` then `(A, OFF)` issued while it waits. -/
def c2Scenario : LockState :=
  { inFlight := some { objnam := "B", changes := [(STATUS_ATTR, "ON")] },
    waiting := [{ objnam := "A", changes := [(STATUS_ATTR, "ON")] },
                { objnam := "A", changes := [(STATUS_ATTR, "OFF")] }],
    wire := [requestChangesPacket { objnam := "B", changes := [(STATUS_ATTR, "ON")] }] }

/-! ## `controller.py`: reconnection backoff of `ICConnectionHandler`

`_starter` sleeps `delay` after each failed attempt and then sets
`delay = min(int(delay * 1.5), MAX_RECONNECT_DELAY)`.  For the integer
delays involved (at most 600), `delay * 1.5` is exact in binary floating
point and `int()` truncates it, which is `3 * delay / 2` in natural
division.
-/

def DEFAULT_RECONNECT_DELAY : Nat := 30

def MAX_RECONNECT_DELAY : Nat := 600

def nextDelay (d : Nat) : Nat := min (3 * d / 2) MAX_RECONNECT_DELAY

/-- The delay slept before retry number `n + 1` after `n + 1` consecutive
failures (the first failed attempt sleeps the base delay). -/
def reconnectDelay : Nat → Nat
  | 0 => DEFAULT_RECONNECT_DELAY
  | n + 1 => nextDelay (reconnectDelay n)

/-! ## `controller.py`: debounced disconnect notification

Events of `ICConnectionHandler`: `_on_disconnect` (unexpected loss, which
cancels any older debounce task and starts a fresh one), the success path
of `_starter` (which cancels the debounce task and marks the connection
up, firing `on_started` or `on_reconnected`), and the expiry of
`_delayed_disconnect`'s sleep (which fires `on_disconnected` only when
the task was not cancelled and the connection is still down).
-/

inductive HandlerEvent where
  | disconnect
  | reconnected
  | debounceFire
deriving Repr, DecidableEq

inductive HandlerOutput where
  | onStarted
  | onReconnected
  | onDisconnected
deriving Repr, DecidableEq

structure HandlerState where
  stopped : Bool
  firstTime : Bool
  isConnected : Bool
  debounceActive : Bool
deriving Repr, DecidableEq

def handlerStep (s : HandlerState) : HandlerEvent → HandlerState × List HandlerOutput
  | .disconnect =>
      if s.stopped then (s, [])
      else ({ s with isConnected := false, debounceActive := true }, [])
  | .reconnected =>
      if s.firstTime then
        ({ s with debounceActive := false, firstTime := false, isConnected := true },
         [.onStarted])
      else if s.isConnected then
        ({ s with debounceActive := false, isConnected := true }, [])
      else
        ({ s with debounceActive := false, isConnected := true }, [.onReconnected])
  | .debounceFire =>
      if s.debounceActive then
        if s.isConnected then ({ s with debounceActive := false }, [])
        else ({ s with debounceActive := false }, [.onDisconnected])
      else (s, [])

def handlerRun (s : HandlerState) : List HandlerEvent → HandlerState × List HandlerOutput
  | [] => (s, [])
  | e :: evs =>
      ((handlerRun (handlerStep s e).1 evs).1,
       (handlerStep s e).2 ++ (handlerRun (handlerStep s e).1 evs).2)

/-! ## `connection.py`: future-based response correlation

`ICProtocol` there keeps a single `_response_future` (at most one pending
request, enforced by the connection's request lock); `_handle_response`
resolves it with the whole message whenever the message carries a
`response` field — the `messageID` is never consulted — and discards the
message (logging only) when no future is pending.
-/

structure Msg where
  messageID : Option String
  command : Option String
  response : Option String
deriving Repr, DecidableEq

inductive FutState where
  | pending
  | resolved (msg : Msg)
deriving Repr, DecidableEq

structure ConnState where
  future : Option FutState
  messageId : Nat
deriving Repr, DecidableEq

/-- `_handle_response`: resolve the pending future, if any, else no-op. -/
def ICConnProto.handleResponse (s : ConnState) (msg : Msg) : ConnState :=
  match s.future with
  | some FutState.pending => { s with future := some (FutState.resolved msg) }
  | _ => s

/-- The per-message dispatch of `data_received` after the JSON parse:
a `response` field marks a response, `NotifyList` a notification, and
anything else is ignored. -/
def ICConnProto.dispatchMsg (s : ConnState) (msg : Msg) : ConnState × List Msg :=
  if msg.response.isSome then (ICConnProto.handleResponse s msg, [])
  else if msg.command = some "NotifyList" then (s, [msg])
  else (s, [])

/-- The send half of `send_request`: allocate the next message ID and
install a fresh pending future. -/
def ICConnProto.sendRequestStart (s : ConnState) (command : String) : ConnState × Msg :=
  ({ s with messageId := s.messageId + 1, future := some FutState.pending },
   { messageID := some (toString (s.messageId + 1)), command := some command,
     response := none })

/-! # Theorems -/

/-! ## Association-list lemmas -/

theorem alookup_aset_self {α : Type} (l : List (String × α)) (k : String) (v : α) :
    alookup (aset l k v) k = some v := by
  induction l with
  | nil => simp [aset, alookup]
  | cons hd rest ih =>
      obtain ⟨k1, v1⟩ := hd
      by_cases h : k1 = k
      · simp [aset, h, alookup]
      · simp [aset, h, alookup, ih]

theorem alookup_aset_ne {α : Type} (l : List (String × α)) (k k' : String) (v : α)
    (h : k' ≠ k) : alookup (aset l k v) k' = alookup l k' := by
  have hne : ¬ k = k' := fun he => h he.symm
  induction l with
  | nil =>
      show alookup [(k, v)] k' = alookup [] k'
      simp only [alookup]
      rw [if_neg hne]
  | cons hd rest ih =>
      obtain ⟨k1, v1⟩ := hd
      by_cases h1 : k1 = k
      · subst h1
        have e1 : aset ((k1, v1) :: rest) k1 v = (k1, v) :: rest := by
          simp [aset]
        rw [e1]
        simp only [alookup]
        rw [if_neg hne, if_neg hne]
      · have e1 : aset ((k1, v1) :: rest) k v = (k1, v1) :: aset rest k v := by
          simp [aset, h1]
        rw [e1]
        simp only [alookup]
        by_cases h2 : k1 = k'
        · rw [if_pos h2, if_pos h2]
        · rw [if_neg h2, if_neg h2]
          exact ih

theorem mem_aset {α : Type} (l : List (String × α)) (k : String) (v : α)
    (p : String × α) (hp : p ∈ aset l k v) : p ∈ l ∨ p = (k, v) := by
  induction l with
  | nil =>
      simp [aset] at hp
      exact Or.inr hp
  | cons hd rest ih =>
      obtain ⟨k1, v1⟩ := hd
      by_cases h : k1 = k
      · subst h
        simp only [aset, if_pos rfl] at hp
        rcases List.mem_cons.mp hp with he | hm
        · exact Or.inr he
        · exact Or.inl (List.mem_cons_of_mem _ hm)
      · simp only [aset, if_neg h] at hp
        rcases List.mem_cons.mp hp with he | hm
        · exact Or.inl (he ▸ List.mem_cons_self ..)
        · rcases ih hm with h1 | h2
          · exact Or.inl (List.mem_cons_of_mem _ h1)
          · exact Or.inr h2

theorem akeys_aset_mem {α : Type} (l : List (String × α)) (k : String) (v : α)
    (h : (alookup l k).isSome) : akeys (aset l k v) = akeys l := by
  induction l with
  | nil => simp [alookup] at h
  | cons hd rest ih =>
      obtain ⟨k1, v1⟩ := hd
      by_cases h1 : k1 = k
      · simp [aset, h1, akeys]
      · simp only [alookup, if_neg h1] at h
        simp [aset, if_neg h1, akeys] at ih ⊢
        exact ih h

theorem alookup_isSome_iff {α : Type} (l : List (String × α)) (k : String) :
    (alookup l k).isSome ↔ k ∈ akeys l := by
  induction l with
  | nil => simp [alookup, akeys]
  | cons hd rest ih =>
      obtain ⟨k1, v1⟩ := hd
      by_cases h : k1 = k
      · simp [alookup, h, akeys]
      · have hne : ¬ k = k1 := fun he => h he.symm
        simp [alookup, h, akeys, hne, ih]

/-! ## Flow-control invariant (C1, C9) -/

theorem flowInv_init : FlowInv initFlow := by
  refine ⟨?_, ?_, ?_, ?_⟩ <;> simp [initFlow, FlowInv, MAX_QUEUE_SIZE]

theorem flowInv_send (s : FlowState) (r : String) (h : FlowInv s) :
    FlowInv (ICProtocol.sendRequest s r) := by
  obtain ⟨p, q, u⟩ := s
  obtain ⟨h1, h2, h3, h4⟩ := h
  have h1' : u ≤ 1 := h1
  have h2' : p = u + q.length := h2
  have h3' : q ≠ [] → u = 1 := h3
  have h4' : q.length ≤ MAX_QUEUE_SIZE := h4
  unfold ICProtocol.sendRequest
  by_cases hp : p + 1 = 1
  · rw [if_pos hp]
    have hq : q = [] := List.length_eq_zero.mp (by omega)
    subst hq
    refine ⟨?_, ?_, ?_, ?_⟩
    · show u + 1 ≤ 1
      omega
    · show p + 1 = u + 1 + ([] : List String).length
      simp only [List.length_nil]
      omega
    · intro hne
      exact absurd rfl hne
    · show ([] : List String).length ≤ MAX_QUEUE_SIZE
      simp [MAX_QUEUE_SIZE]
  · rw [if_neg hp]
    have hu : u = 1 := by
      by_cases hq : q = []
      · have hl : q.length = 0 := by rw [hq]; rfl
        omega
      · exact h3' hq
    by_cases hlen : q.length < MAX_QUEUE_SIZE
    · rw [if_pos hlen]
      have hlapp : (q ++ [r]).length = q.length + 1 := by
        rw [List.length_append, List.length_cons, List.length_nil]
      refine ⟨h1', ?_, fun _ => hu, ?_⟩
      · show p + 1 = u + (q ++ [r]).length
        rw [hlapp]
        omega
      · show (q ++ [r]).length ≤ MAX_QUEUE_SIZE
        rw [hlapp]
        omega
    · rw [if_neg hlen]
      refine ⟨h1', ?_, h3', h4'⟩
      show p + 1 - 1 = u + q.length
      omega

theorem flowInv_response (s : FlowState) (h : FlowInv s)
    (hg : 1 ≤ s.unanswered) : FlowInv (ICProtocol.responseArrival s) := by
  obtain ⟨p, q, u⟩ := s
  obtain ⟨h1, h2, h3, h4⟩ := h
  have h1' : u ≤ 1 := h1
  have h2' : p = u + q.length := h2
  have h4' : q.length ≤ MAX_QUEUE_SIZE := h4
  have hg' : 1 ≤ u := hg
  have hu : u = 1 := by omega
  cases q with
  | nil =>
      show FlowInv ⟨p - 1, [], u - 1⟩
      have hl : ([] : List String).length = 0 := rfl
      refine ⟨?_, ?_, ?_, ?_⟩
      · show u - 1 ≤ 1
        omega
      · show p - 1 = u - 1 + ([] : List String).length
        omega
      · intro hne
        exact absurd rfl hne
      · show ([] : List String).length ≤ MAX_QUEUE_SIZE
        simp [MAX_QUEUE_SIZE]
  | cons x rest =>
      show FlowInv ⟨p - 1, rest, u - 1 + 1⟩
      have hl : (x :: rest).length = rest.length + 1 := rfl
      refine ⟨?_, ?_, ?_, ?_⟩
      · show u - 1 + 1 ≤ 1
        omega
      · show p - 1 = u - 1 + 1 + rest.length
        omega
      · intro _
        show u - 1 + 1 = 1
        omega
      · show rest.length ≤ MAX_QUEUE_SIZE
        omega

theorem flowInv_run (evs : List FlowEvent) :
    ∀ s : FlowState, FlowInv s → flowGuarded s evs = true → FlowInv (flowRun s evs) := by
  induction evs with
  | nil => intro s h _; simpa [flowRun] using h
  | cons e evs ih =>
      intro s h hg
      cases e with
      | send r =>
          simp only [flowGuarded] at hg
          exact ih _ (flowInv_send s r h) hg
      | response =>
          simp only [flowGuarded, Bool.and_eq_true, decide_eq_true_eq] at hg
          exact ih _ (flowInv_response s h hg.1) hg.2

/-- C1: over every guarded sequence of `sendRequest` and response-arrival
operations started from the initial flow-control state, the number of
requests written to the transport that do not yet have a corresponding
response never exceeds 1.  (Every prefix of a guarded trace is itself a
guarded trace, so the quantification over all traces bounds the count at
every intermediate point as well.) -/
theorem c1_single_inflight (evs : List FlowEvent)
    (hg : flowGuarded initFlow evs = true) :
    (flowRun initFlow evs).unanswered ≤ 1 :=
  (flowInv_run evs initFlow flowInv_init hg).1

/-- Witness for C1: a concrete guarded trace (one send, its response,
then two overlapping sends). -/
theorem c1_single_inflight_witness :
    (flowRun initFlow
      [FlowEvent.send "a", FlowEvent.response, FlowEvent.send "b",
       FlowEvent.send "c"]).unanswered ≤ 1 :=
  c1_single_inflight
    [FlowEvent.send "a", FlowEvent.response, FlowEvent.send "b", FlowEvent.send "c"]
    (by decide)

/-- C9: when a request is already in flight (`_out_pending ≠ 0`) and the
wait queue already holds `MAX_QUEUE_SIZE` entries, `sendRequest` is a
silent drop — the state (pending counter, queue, wire) is returned
unchanged and no error reaches the caller; and along every guarded trace
from the initial state the pending counter never exceeds
`MAX_QUEUE_SIZE + 1`. -/
theorem c9_queue_full_drop :
    (∀ (s : FlowState) (r : String), s.outPending ≠ 0 →
        s.outQueue.length = MAX_QUEUE_SIZE → ICProtocol.sendRequest s r = s) ∧
    (∀ evs : List FlowEvent, flowGuarded initFlow evs = true →
        (flowRun initFlow evs).outPending ≤ MAX_QUEUE_SIZE + 1) := by
  constructor
  · intro s r hp hq
    obtain ⟨p, q, u⟩ := s
    have hp' : p ≠ 0 := hp
    have hq' : q.length = MAX_QUEUE_SIZE := hq
    unfold ICProtocol.sendRequest
    rw [if_neg (by omega), if_neg (by omega)]
    show (⟨p + 1 - 1, q, u⟩ : FlowState) = ⟨p, q, u⟩
    have : p + 1 - 1 = p := by omega
    rw [this]
  · intro evs hg
    obtain ⟨h1, h2, _, h4⟩ := flowInv_run evs initFlow flowInv_init hg
    omega

/-- Witness for C9 at a concrete full-queue state and a concrete trace. -/
theorem c9_queue_full_drop_witness :
    ICProtocol.sendRequest fullFlowState "extra" = fullFlowState ∧
    (flowRun initFlow [FlowEvent.send "a", FlowEvent.send "b"]).outPending ≤
      MAX_QUEUE_SIZE + 1 :=
  ⟨c9_queue_full_drop.1 fullFlowState "extra" (by decide)
      (by simp [fullFlowState, List.length_replicate]),
   c9_queue_full_drop.2 [FlowEvent.send "a", FlowEvent.send "b"] (by decide)⟩

/-! ## Buffer caps (C8) -/

/-- C8: whenever the accumulated receive buffer exceeds the hard cap, the
connection is closed immediately instead of the buffer growing further —
in `protocol.py` (cap 1,000,000 characters, buffer also cleared) and in
`connection.py` (cap 1024*1024 bytes).  This holds with no proviso about
terminators: the cap check runs before the terminator test, so in
particular it holds when no terminator has been seen. -/
theorem c8_buffer_cap :
    (∀ (st : ProtState) (data : String),
        (st.lineBuffer ++ data).length > MAX_BUFFER_SIZE →
        (ICProtocol.dataReceived st data).closed = true ∧
        (ICProtocol.dataReceived st data).lineBuffer = "") ∧
    (∀ (st : ConnBufState) (data : String),
        (st.buffer ++ data).length > CONN_MAX_BUFFER_SIZE →
        (ICConnProto.dataReceived st data).closed = true) := by
  constructor
  · intro st data h
    unfold ICProtocol.dataReceived
    rw [if_pos h]
    exact ⟨rfl, rfl⟩
  · intro st data h
    unfold ICConnProto.dataReceived
    rw [if_pos h]

theorem bigList_length : bigList.length = 1048577 := by
  rw [bigList]
  exact List.length_replicate ..

theorem bigChunk_length : bigChunk.length = 1048577 := by
  rw [← String.length_data]
  show bigList.length = 1048577
  exact bigList_length

/-- Witness for C8 on a concrete oversized chunk arriving at the initial
states of both protocols. -/
theorem c8_buffer_cap_witness :
    (ICProtocol.dataReceived initProt bigChunk).closed = true ∧
    (ICProtocol.dataReceived initProt bigChunk).lineBuffer = "" ∧
    (ICConnProto.dataReceived initConnBuf bigChunk).closed = true := by
  have he1 : initProt.lineBuffer ++ bigChunk = bigChunk := rfl
  have he2 : initConnBuf.buffer ++ bigChunk = bigChunk := rfl
  have h1 : (initProt.lineBuffer ++ bigChunk).length > MAX_BUFFER_SIZE := by
    rw [he1, bigChunk_length]
    decide
  have h2 : (initConnBuf.buffer ++ bigChunk).length > CONN_MAX_BUFFER_SIZE := by
    rw [he2, bigChunk_length]
    decide
  exact ⟨(c8_buffer_cap.1 initProt bigChunk h1).1,
         (c8_buffer_cap.1 initProt bigChunk h1).2,
         c8_buffer_cap.2 initConnBuf bigChunk h2⟩

/-! ## `PoolObject.update` lemmas (C4) -/

/-- Keys never mentioned by the update list keep their property value. -/
theorem updateGo_untouched (updates : AttrMap) :
    ∀ (obj : PoolObject) (changed : AttrMap) (k : String),
    (∀ p ∈ updates, p.1 ≠ k) →
    alookup (updateGo obj changed updates).1.properties k = alookup obj.properties k := by
  induction updates with
  | nil => intro obj changed k _; rfl
  | cons hd rest ih =>
      intro obj changed k h
      obtain ⟨key, value⟩ := hd
      have hk : key ≠ k := h (key, value) (List.mem_cons_self ..)
      have hrest : ∀ p ∈ rest, p.1 ≠ k := fun p hp => h p (List.mem_cons_of_mem _ hp)
      by_cases h1 : alookup obj.properties key = some value
      · simp only [updateGo, if_pos h1]
        exact ih obj changed k hrest
      · by_cases h2 : key = OBJTYP_ATTR
        · simp only [updateGo, if_neg h1, if_pos h2]
          exact ih _ _ k hrest
        · by_cases h3 : key = SUBTYP_ATTR
          · simp only [updateGo, if_neg h1, if_neg h2, if_pos h3]
            exact ih _ _ k hrest
          · simp only [updateGo, if_neg h1, if_neg h2, if_neg h3]
            rw [ih _ _ k hrest]
            show alookup (aset obj.properties key value) k = alookup obj.properties k
            exact alookup_aset_ne _ key k value (Ne.symm hk)

/-- When the update list has distinct, non-type keys, every pair of the
list is stored in the resulting property bag. -/
theorem updateGo_sets (updates : AttrMap) :
    ∀ (obj : PoolObject) (changed : AttrMap),
    (akeys updates).Nodup →
    (∀ k ∈ akeys updates, k ≠ OBJTYP_ATTR ∧ k ≠ SUBTYP_ATTR) →
    ∀ p ∈ updates, alookup (updateGo obj changed updates).1.properties p.1 = some p.2 := by
  induction updates with
  | nil =>
      intro obj changed _ _ p hp
      exact absurd hp (List.not_mem_nil p)
  | cons hd rest ih =>
      intro obj changed hnd hty p hp
      obtain ⟨key, value⟩ := hd
      have hnd' : key ∉ akeys rest ∧ (akeys rest).Nodup := by
        have : akeys ((key, value) :: rest) = key :: akeys rest := rfl
        rw [this] at hnd
        exact List.nodup_cons.mp hnd
      have htyrest : ∀ k ∈ akeys rest, k ≠ OBJTYP_ATTR ∧ k ≠ SUBTYP_ATTR := by
        intro k hk
        exact hty k (List.mem_cons_of_mem _ hk)
      have hkey : key ≠ OBJTYP_ATTR ∧ key ≠ SUBTYP_ATTR :=
        hty key (List.mem_cons_self ..)
      have hrestne : ∀ q ∈ rest, q.1 ≠ key := by
        intro q hq hqe
        exact hnd'.1 (hqe ▸ List.mem_map_of_mem Prod.fst hq)
      rcases List.mem_cons.mp hp with heq | hmem
      · subst heq
        by_cases h1 : alookup obj.properties key = some value
        · simp only [updateGo, if_pos h1]
          rw [updateGo_untouched rest obj changed key hrestne]
          exact h1
        · simp only [updateGo, if_neg h1, if_neg hkey.1, if_neg hkey.2]
          rw [updateGo_untouched rest _ _ key hrestne]
          show alookup (aset obj.properties key value) key = some value
          exact alookup_aset_self ..
      · by_cases h1 : alookup obj.properties key = some value
        · simp only [updateGo, if_pos h1]
          exact ih obj changed hnd'.2 htyrest p hmem
        · by_cases h2 : key = OBJTYP_ATTR
          · simp only [updateGo, if_neg h1, if_pos h2]
            exact ih _ _ hnd'.2 htyrest p hmem
          · by_cases h3 : key = SUBTYP_ATTR
            · simp only [updateGo, if_neg h1, if_neg h2, if_pos h3]
              exact ih _ _ hnd'.2 htyrest p hmem
            · simp only [updateGo, if_neg h1, if_neg h2, if_neg h3]
              exact ih _ _ hnd'.2 htyrest p hmem

/-- An update all of whose pairs already hold in the property bag is a
complete no-op: state and accumulated diff are unchanged. -/
theorem updateGo_nochange (updates : AttrMap) :
    ∀ (obj : PoolObject) (changed : AttrMap),
    (∀ p ∈ updates, alookup obj.properties p.1 = some p.2) →
    updateGo obj changed updates = (obj, changed) := by
  induction updates with
  | nil => intro obj changed _; rfl
  | cons hd rest ih =>
      intro obj changed h
      obtain ⟨key, value⟩ := hd
      have h1 : alookup obj.properties key = some value :=
        h (key, value) (List.mem_cons_self ..)
      simp only [updateGo, if_pos h1]
      exact ih obj changed (fun p hp => h p (List.mem_cons_of_mem _ hp))

/-! ## C3: `addObject` with a missing type discriminator -/

/-- C3 (evaluating the code at the failing inputs): `addObject` on a
parameter bag lacking `OBJTYP` is not a silent no-op — it raises
`KeyError("OBJTYP")` out of `PoolObject.__init__`'s unguarded
`params.pop(OBJTYP_ATTR)`, for both the empty bag of a pruned `_FDR`
entry and a partial bag.  The repository's own test
`test_pool_model_skip_objects_without_objtyp` asserts the silent skip
the claim describes, so this is a divergence of the code from its own
test suite. -/
theorem c3_missing_objtyp_raises :
    PoolModel.addObject emptyPoolModel "_FDR" [] =
      Except.error (PyErr.keyError OBJTYP_ATTR) ∧
    PoolModel.addObject emptyPoolModel "PARTIAL" [("SNAME", "Test"), ("PARENT", "ROOT")] =
      Except.error (PyErr.keyError OBJTYP_ATTR) := by
  constructor
  · rfl
  · rfl

/-! ## C4: the diff semantics of `PoolObject.update` -/

/-- Counterexample to C4 as stated: for an object whose `OBJTYP` is
already `"CIRCUIT"`, updating with that very same `OBJTYP` value is
reported as a change (the skip test consults only `_properties`, which
never contains `OBJTYP`), and a second identical update again yields a
non-empty diff — refuting both "unchanged values are never reported as
a change" and "update twice with the same mapping yields an empty diff
on the second call". -/
theorem c4_counterexample :
    c4Object.objtyp = "CIRCUIT" ∧
    (c4Object.update [(OBJTYP_ATTR, "CIRCUIT")]).2 = [(OBJTYP_ATTR, "CIRCUIT")] ∧
    ((c4Object.update [(OBJTYP_ATTR, "CIRCUIT")]).1.update
        [(OBJTYP_ATTR, "CIRCUIT")]).2 = [(OBJTYP_ATTR, "CIRCUIT")] := by
  refine ⟨rfl, rfl, rfl⟩

/-- C4 as amended: restricted to update maps whose keys avoid the
`OBJTYP`/`SUBTYP` discriminators (and are distinct, as dict keys are),
`update` (1) is a complete no-op with an empty returned diff when every
pair already holds, (2) stores a changed or new value in the property
bag, and (3) applied twice with the same mapping returns an empty diff
the second time. -/
theorem c4_update_diff :
    (∀ (obj : PoolObject) (updates : AttrMap),
        (∀ p ∈ updates, alookup obj.properties p.1 = some p.2) →
        PoolObject.update obj updates = (obj, [])) ∧
    (∀ (obj : PoolObject) (k v : String), k ≠ OBJTYP_ATTR → k ≠ SUBTYP_ATTR →
        alookup ((PoolObject.update obj [(k, v)]).1.properties) k = some v) ∧
    (∀ (obj : PoolObject) (updates : AttrMap),
        (akeys updates).Nodup →
        (∀ k ∈ akeys updates, k ≠ OBJTYP_ATTR ∧ k ≠ SUBTYP_ATTR) →
        ((PoolObject.update obj updates).1.update updates).2 = []) := by
  refine ⟨?_, ?_, ?_⟩
  · intro obj updates h
    exact updateGo_nochange updates obj [] h
  · intro obj k v hk1 hk2
    show alookup (updateGo obj [] [(k, v)]).1.properties k = some v
    by_cases h1 : alookup obj.properties k = some v
    · simp only [updateGo, if_pos h1]
      exact h1
    · simp only [updateGo, if_neg h1, if_neg hk1, if_neg hk2]
      show alookup (aset obj.properties k v) k = some v
      exact alookup_aset_self ..
  · intro obj updates hnd hty
    have hall := updateGo_sets updates obj [] hnd hty
    have hfix := updateGo_nochange updates (updateGo obj [] updates).1 [] hall
    show (updateGo (updateGo obj [] updates).1 [] updates).2 = []
    rw [hfix]

/-- Witness for the amended C4 at concrete inputs. -/
theorem c4_update_diff_witness :
    PoolObject.update c4Object [(STATUS_ATTR, "ON")] = (c4Object, []) ∧
    alookup ((PoolObject.update c4Object [("MODE", "5")]).1.properties) "MODE" = some "5" ∧
    ((PoolObject.update c4Object [(STATUS_ATTR, "OFF")]).1.update
        [(STATUS_ATTR, "OFF")]).2 = [] :=
  ⟨c4_update_diff.1 c4Object [(STATUS_ATTR, "ON")] (by decide),
   c4_update_diff.2.1 c4Object "MODE" "5" (by decide) (by decide),
   c4_update_diff.2.2 c4Object [(STATUS_ATTR, "OFF")] (by decide) (by decide)⟩

/-! ## C5: `processUpdates` -/

/-- The loop of `processUpdates` never adds or removes model keys, and
every accumulated diff entry either was already in the accumulator or
names an object present in the model with a non-empty diff. -/
theorem processUpdatesGo_spec (updates : List (String × AttrMap)) :
    ∀ (model : PoolModel) (updated : List (String × AttrMap)),
    akeys (processUpdatesGo model updated updates).1.objects = akeys model.objects ∧
    (∀ p ∈ (processUpdatesGo model updated updates).2,
        p ∈ updated ∨ (p.1 ∈ akeys model.objects ∧ p.2 ≠ [])) := by
  induction updates with
  | nil =>
      intro model updated
      exact ⟨rfl, fun p hp => Or.inl hp⟩
  | cons hd rest ih =>
      intro model updated
      obtain ⟨objnam, params⟩ := hd
      cases hlk : alookup model.objects objnam with
      | none =>
          simp only [processUpdatesGo, hlk]
          exact ih model updated
      | some poolObj =>
          simp only [processUpdatesGo, hlk]
          have hsome : (alookup model.objects objnam).isSome := by
            rw [hlk]; rfl
          have hmem : objnam ∈ akeys model.objects :=
            (alookup_isSome_iff model.objects objnam).mp hsome
          have hkeys : akeys (aset model.objects objnam (poolObj.update params).1) =
              akeys model.objects := akeys_aset_mem _ _ _ hsome
          obtain ⟨ihk, ihm⟩ := ih
            { model with objects := aset model.objects objnam (poolObj.update params).1 }
            (if (poolObj.update params).2 = [] then updated
             else aset updated objnam (poolObj.update params).2)
          constructor
          · rw [ihk]
            exact hkeys
          · intro p hp
            rcases ihm p hp with hin | hnew
            · by_cases hc : (poolObj.update params).2 = []
              · rw [if_pos hc] at hin
                exact Or.inl hin
              · rw [if_neg hc] at hin
                rcases mem_aset updated objnam _ p hin with h1 | h2
                · exact Or.inl h1
                · subst h2
                  exact Or.inr ⟨hmem, hc⟩
            · refine Or.inr ⟨?_, hnew.2⟩
              have h1 : p.1 ∈ akeys (aset model.objects objnam (poolObj.update params).1) :=
                hnew.1
              rw [hkeys] at h1
              exact h1

/-- C5: `processUpdates` (1) neither creates nor removes model objects —
the key set of the model is unchanged, so an entry whose `objnam` is
unknown creates nothing; (2) returns only entries for objects already
present whose `update` diff is non-empty; and (3) concretely, with
`O1.STATUS == "OFF"` in the model, processing
`objnam O1, params STATUS: ON` returns the changed map
`O1 -> (STATUS, ON)`, leaves `O1.STATUS == "ON"` in the model, and an
entry for an unknown `OX` returns an empty map with the model
untouched. -/
theorem c5_process_updates :
    (∀ (model : PoolModel) (updates : List (String × AttrMap)),
        akeys (model.processUpdates updates).1.objects = akeys model.objects) ∧
    (∀ (model : PoolModel) (updates : List (String × AttrMap)),
        ∀ p ∈ (model.processUpdates updates).2,
          p.1 ∈ akeys model.objects ∧ p.2 ≠ []) ∧
    (c5Model.processUpdates [("O1", [(STATUS_ATTR, "ON")])]).2 =
        [("O1", [(STATUS_ATTR, "ON")])] ∧
    alookup (c5Model.processUpdates [("O1", [(STATUS_ATTR, "ON")])]).1.objects "O1" =
        some c5ObjOn ∧
    c5Model.processUpdates [("OX", [(STATUS_ATTR, "ON")])] = (c5Model, []) := by
  refine ⟨?_, ?_, ?_, ?_, ?_⟩
  · intro model updates
    exact (processUpdatesGo_spec updates model []).1
  · intro model updates p hp
    rcases (processUpdatesGo_spec updates model []).2 p hp with h | h
    · exact absurd h (List.not_mem_nil p)
    · exact h
  · rfl
  · rfl
  · rfl

/-- Witness for C5 at the concrete model and notification of the claim. -/
theorem c5_process_updates_witness :
    "O1" ∈ akeys c5Model.objects ∧ [(STATUS_ATTR, "ON")] ≠ ([] : AttrMap) :=
  c5_process_updates.2.1 c5Model [("O1", [(STATUS_ATTR, "ON")])]
    ("O1", [(STATUS_ATTR, "ON")]) (by decide)

/-! ## C2: the write path has no coalescing -/

theorem lockDrainFuel_spec (queued : List WriteReq) :
    ∀ (w0 : WriteReq) (wire0 : List Packet),
    lockDrainFuel (queued.length + 1)
        { inFlight := some w0, waiting := queued, wire := wire0 } =
      { inFlight := none, waiting := [],
        wire := wire0 ++ queued.map requestChangesPacket } := by
  induction queued with
  | nil =>
      intro w0 wire0
      simp [lockDrainFuel, lockComplete]
  | cons w rest ih =>
      intro w0 wire0
      have h1 : lockDrainFuel ((w :: rest).length + 1)
          { inFlight := some w0, waiting := w :: rest, wire := wire0 } =
          lockDrainFuel (rest.length + 1)
            { inFlight := some w, waiting := rest,
              wire := wire0 ++ [requestChangesPacket w] } := rfl
      rw [h1, ih w (wire0 ++ [requestChangesPacket w])]
      simp [List.append_assoc]

/-- Counterexample to C2 as stated: in the concrete scenario — one write
in flight and writes `(A, ON)` then `(A, OFF)` issued concurrently —
draining produces three separate wire packets, not two; the claimed
single combined batch never exists, and a packet carrying `(A, ON)`
does reach the wire even though `OFF` was the last value written for
`A`'s `STATUS`. -/
theorem c2_counterexample :
    (lockDrain c2Scenario).wire.length = 3 ∧
    ((lockDrain c2Scenario).wire.getD 1
        { command := "", objectList := [] }).objectList =
      [("A", [(STATUS_ATTR, "ON")])] ∧
    ¬ (lockDrain c2Scenario).wire.length = 2 := by
  refine ⟨rfl, rfl, by decide⟩

/-- C2 as amended: write requests issued while a write is in flight are
not merged; they wait on the per-connection request lock in FIFO order
and each is sent as its own `SETPARAMLIST` packet carrying exactly that
caller's object and changes, so draining appends one packet per queued
request, in order. -/
theorem c2_serialized_writes (w0 : WriteReq) (queued : List WriteReq)
    (wire0 : List Packet) :
    lockDrain { inFlight := some w0, waiting := queued, wire := wire0 } =
      { inFlight := none, waiting := [],
        wire := wire0 ++ queued.map requestChangesPacket } :=
  lockDrainFuel_spec queued w0 wire0

/-! ## C6: reconnection backoff -/

/-- C6: the retry delay starts at 30 s, the next delays are 45 s and
67 s, the sequence never decreases, and it is capped at 600 s. -/
theorem c6_backoff :
    reconnectDelay 0 = 30 ∧ reconnectDelay 1 = 45 ∧ reconnectDelay 2 = 67 ∧
    (∀ n, reconnectDelay n ≤ reconnectDelay (n + 1)) ∧
    (∀ n, reconnectDelay n ≤ MAX_RECONNECT_DELAY) := by
  have hbounds : ∀ n, 1 ≤ reconnectDelay n ∧ reconnectDelay n ≤ MAX_RECONNECT_DELAY := by
    intro n
    induction n with
    | zero =>
        constructor <;>
          norm_num [reconnectDelay, DEFAULT_RECONNECT_DELAY, MAX_RECONNECT_DELAY]
    | succ n ih =>
        constructor
        · show 1 ≤ nextDelay (reconnectDelay n)
          have h1 : 1 ≤ 3 * reconnectDelay n / 2 := by
            have := ih.1
            omega
          have h2 : (1 : Nat) ≤ MAX_RECONNECT_DELAY := by
            norm_num [MAX_RECONNECT_DELAY]
          exact le_min h1 h2
        · exact min_le_right _ _
  refine ⟨rfl, rfl, rfl, ?_, fun n => (hbounds n).2⟩
  intro n
  show reconnectDelay n ≤ nextDelay (reconnectDelay n)
  have h1 : reconnectDelay n ≤ 3 * reconnectDelay n / 2 := by omega
  exact le_min h1 (hbounds n).2

/-! ## C7: the disconnect debounce -/

/-- C7: from any handler state, an unexpected disconnect followed by a
successful reconnection before the debounce timer fires never emits
`on_disconnected` (the reconnection cancels the timer); moreover the
timer emits nothing when the connection is back up at expiry, and a
cancelled timer emits nothing. -/
theorem c7_debounce :
    (∀ s : HandlerState,
        HandlerOutput.onDisconnected ∉
          (handlerRun s
            [HandlerEvent.disconnect, HandlerEvent.reconnected,
             HandlerEvent.debounceFire]).2) ∧
    (∀ s : HandlerState, s.isConnected = true →
        (handlerStep s HandlerEvent.debounceFire).2 = []) ∧
    (∀ s : HandlerState, s.debounceActive = false →
        (handlerStep s HandlerEvent.debounceFire).2 = []) := by
  refine ⟨?_, ?_, ?_⟩
  · intro s
    obtain ⟨st, ft, ic, da⟩ := s
    cases st <;> cases ft <;> cases ic <;> cases da <;> decide
  · intro s h
    obtain ⟨st, ft, ic, da⟩ := s
    have hic : ic = true := h
    subst hic
    cases da <;> rfl
  · intro s h
    obtain ⟨st, ft, ic, da⟩ := s
    have hda : da = false := h
    subst hda
    rfl

/-- Witness for C7 at a concrete connected state. -/
theorem c7_debounce_witness :
    HandlerOutput.onDisconnected ∉
      (handlerRun
        { stopped := false, firstTime := false, isConnected := true,
          debounceActive := false }
        [HandlerEvent.disconnect, HandlerEvent.reconnected,
         HandlerEvent.debounceFire]).2 ∧
    (handlerStep
        { stopped := false, firstTime := false, isConnected := true,
          debounceActive := true } HandlerEvent.debounceFire).2 = [] ∧
    (handlerStep
        { stopped := false, firstTime := false, isConnected := false,
          debounceActive := false } HandlerEvent.debounceFire).2 = [] :=
  ⟨c7_debounce.1
      { stopped := false, firstTime := false, isConnected := true,
        debounceActive := false },
   c7_debounce.2.1
      { stopped := false, firstTime := false, isConnected := true,
        debounceActive := true } rfl,
   c7_debounce.2.2
      { stopped := false, firstTime := false, isConnected := false,
        debounceActive := false } rfl⟩

/-! ## C10: future-based response correlation -/

/-- C10: a well-framed message carrying a `response` field resolves the
pending future with the whole message for any `messageID` whatsoever; a
response arriving with no pending future leaves the connection state
unchanged (it is only logged); and `send_request` installs the single
pending future. -/
theorem c10_response_future :
    (∀ (s : ConnState) (msg : Msg), msg.response.isSome = true →
        s.future = some FutState.pending →
        ICConnProto.dispatchMsg s msg =
          ({ s with future := some (FutState.resolved msg) }, [])) ∧
    (∀ (s : ConnState) (msg : Msg), msg.response.isSome = true →
        s.future ≠ some FutState.pending →
        ICConnProto.dispatchMsg s msg = (s, [])) ∧
    (∀ (s : ConnState) (command : String),
        (ICConnProto.sendRequestStart s command).1.future =
          some FutState.pending) := by
  refine ⟨?_, ?_, ?_⟩
  · intro s msg h1 h2
    simp only [ICConnProto.dispatchMsg, if_pos h1]
    unfold ICConnProto.handleResponse
    rw [h2]
  · intro s msg h1 h2
    simp only [ICConnProto.dispatchMsg, if_pos h1]
    unfold ICConnProto.handleResponse
    split
    · next heq => exact absurd heq h2
    · rfl
  · intro s command
    rfl

/-- Witness for C10: a request with ID "1" is resolved by a response
whose ID is "99", and the same response arriving with no pending future
changes nothing. -/
theorem c10_response_future_witness :
    ICConnProto.dispatchMsg
        (ICConnProto.sendRequestStart { future := none, messageId := 0 }
          "GetParamList").1
        { messageID := some "99", command := some "GetParamList",
          response := some "200" } =
      ({ future := some (FutState.resolved
            { messageID := some "99", command := some "GetParamList",
              response := some "200" }),
          messageId := 1 }, []) ∧
    ICConnProto.dispatchMsg { future := none, messageId := 0 }
        { messageID := some "1", command := some "GetParamList",
          response := some "200" } =
      ({ future := none, messageId := 0 }, []) :=
  ⟨c10_response_future.1
      (ICConnProto.sendRequestStart { future := none, messageId := 0 }
        "GetParamList").1
      { messageID := some "99", command := some "GetParamList",
        response := some "200" } rfl rfl,
   c10_response_future.2.1 { future := none, messageId := 0 }
      { messageID := some "1", command := some "GetParamList",
        response := some "200" } rfl (by decide)⟩
